import Mathlib

set_option maxHeartbeats 1000000

namespace ResumeStore

/-- One resume's structured data, as held in the module-level `resumes`
dictionary of `backend/server.py` (keys id, filename, name, email, phone,
linkedin, github, skills). -/
structure Record where
  id : String
  filename : String
  name : String
  email : String
  phone : String
  linkedin : String
  github : String
  skills : List String
deriving DecidableEq

/-- The fields returned by the external `extract_details` collaborator
(before `upload_resume` adds the id and filename keys at lines 119-120). -/
structure Parsed where
  name : String
  email : String
  phone : String
  linkedin : String
  github : String
  skills : List String
deriving DecidableEq

/-- `parsed_details` after server.py lines 119-120 set the id (the unique
filename) and filename keys. -/
def mkRecord (uf fn : String) (p : Parsed) : Record :=
  ⟨uf, fn, p.name, p.email, p.phone, p.linkedin, p.github, p.skills⟩

/-- server.py line 28. -/
def EXPECTED_HEADERS : List String :=
  ["ID", "Filename", "Name", "Email", "Phone", "LinkedIn", "GitHub", "Skills"]

/-- The server's mutable state: the remote spreadsheet (`sheet`, a list of
rows of cells) and the in-memory cache (the module-level `resumes` dict,
modelled as an insertion-ordered association list). -/
structure ServerState where
  rows : List (List String)
  resumes : List (String × Record)
deriving DecidableEq

/-- Python `s.split(", ")` on the character list of `s`: split at each
non-overlapping occurrence of the two-character separator, scanning left to
right; in particular `"".split(", ") = [""]`. -/
def splitCS : List Char → List (List Char)
  | [] => [[]]
  | [c] => [[c]]
  | c :: d :: rest =>
    if c = ',' ∧ d = ' ' then [] :: splitCS rest
    else (splitCS (d :: rest)).modifyHead (fun l => c :: l)

/-- Python `", ".join` on lists of characters. -/
def joinCS : List (List Char) → List Char
  | [] => []
  | [x] => x
  | x :: y :: ys => x ++ ',' :: ' ' :: joinCS (y :: ys)

/-- server.py line 80: `record.get("Skills", "").split(", ")`. -/
def pySplitCS (s : String) : List String := (splitCS s.data).map String.mk

/-- server.py line 55: `", ".join(data.get("skills", []))`. -/
def pyJoinCS (l : List String) : String := String.mk (joinCS (l.map String.data))

/-- Python `str.strip()` restricted to ASCII whitespace. -/
def pyStripChars (l : List Char) : List Char :=
  ((l.dropWhile Char.isWhitespace).reverse.dropWhile Char.isWhitespace).reverse

/-- The test `not extracted_text.strip()` of server.py line 108. -/
def blankText (s : String) : Bool := (pyStripChars s.data).isEmpty

/-- Python dict assignment `d[k] = v` on an insertion-ordered association
list: replace the value in place if the key exists, else append at the end. -/
def dictInsert (m : List (String × Record)) (k : String) (v : Record) :
    List (String × Record) :=
  if m.any (fun p => p.1 == k) then
    m.map (fun p => if p.1 == k then (k, v) else p)
  else m ++ [(k, v)]

/-- Python dict membership test / lookup `d[k]`. -/
def lookupDict (m : List (String × Record)) (k : String) : Option Record :=
  (m.find? (fun p => p.1 == k)).map Prod.snd

/-- Python `del d[k]` — server.py line 163. -/
def dictErase (m : List (String × Record)) (k : String) : List (String × Record) :=
  m.filter (fun p => !(p.1 == k))

/-- gspread dict lookup `record.get(key)` for one data row paired with the
header row: the value in the column whose header equals the key; short rows
are padded with "" (empty cells read as ""), a key not in the header is
absent (None). -/
def dictGet (hdr row : List String) (k : String) : Option String :=
  match hdr.findIdx? (fun h => h == k) with
  | none => none
  | some i => some (row.getD i "")

/-- gspread `sheet.get_all_records()`: the first row is the header, every
later row becomes a dictionary keyed by the header. -/
def get_all_records (rows : List (List String)) :
    List (List String × List String) :=
  match rows with
  | [] => []
  | hdr :: data => data.map (fun r => (hdr, r))

/-- `sheet.row_values(1)` is falsy iff the first row has no content
(the sheet is empty, or row 1 holds only empty cells). -/
def firstRowEmpty (rows : List (List String)) : Bool :=
  match rows with
  | [] => true
  | r :: _ => r.all (fun c => c == "")

/-- server.py lines 33-37: `ensure_headers`. -/
def ensure_headers (rows : List (List String)) : List (List String) :=
  if firstRowEmpty rows then rows ++ [EXPECTED_HEADERS] else rows

/-- The row literal built at server.py lines 47-56. -/
def serializeRow (r : Record) : List String :=
  [r.id, r.filename, r.name, r.email, r.phone, r.linkedin, r.github,
   pyJoinCS r.skills]

/-- server.py lines 43-60: `append_to_google_sheet`. Every exception is
caught at line 59 and only logged, so the function reports nothing to its
caller. `ensureOk` / `appendOk` say whether the two remote calls succeed;
a failing call leaves the sheet as it was at that point. -/
def append_to_google_sheet (rows : List (List String)) (r : Record)
    (ensureOk appendOk : Bool) : List (List String) :=
  if !ensureOk then rows
  else
    let rows1 := ensure_headers rows
    if !appendOk then rows1 else rows1 ++ [serializeRow r]

/-- server.py lines 72-81: the cache entry built from one fetched record. -/
def rowToRecord (hdr r : List String) : Record :=
  { id := (dictGet hdr r "ID").getD ""
  , filename := (dictGet hdr r "Filename").getD ""
  , name := (dictGet hdr r "Name").getD ""
  , email := (dictGet hdr r "Email").getD ""
  , phone := (dictGet hdr r "Phone").getD ""
  , linkedin := (dictGet hdr r "LinkedIn").getD ""
  , github := (dictGet hdr r "GitHub").getD ""
  , skills := pySplitCS ((dictGet hdr r "Skills").getD "") }

/-- `record.get("ID", "")` — server.py line 70. -/
def entryId (p : List String × List String) : String :=
  (dictGet p.1 p.2 "ID").getD ""

/-- The body of the loop of server.py lines 69-81: rows with an empty ID
are skipped, the others are stored under their ID. -/
def cacheStep (m : List (String × Record)) (p : List String × List String) :
    List (String × Record) :=
  if entryId p == "" then m else dictInsert m (entryId p) (rowToRecord p.1 p.2)

/-- The loop of server.py lines 69-81, starting from the dictionary
cleared at line 67. -/
def build_cache (recs : List (List String × List String)) :
    List (String × Record) :=
  recs.foldl cacheStep []

/-- server.py lines 62-85: `fetch_resumes_from_sheets`. Every exception is
caught at line 84 and only logged; `fetchOk = false` models a failure of
the first remote call, which leaves both sheet and cache untouched (the
cache is only cleared at line 67, after the remote read succeeded). -/
def fetch_resumes_from_sheets (st : ServerState) (fetchOk : Bool) : ServerState :=
  if !fetchOk then st
  else
    let rows1 := ensure_headers st.rows
    ⟨rows1, build_cache (get_all_records rows1)⟩

inductive UploadOutcome where
  | extractionFailed
  | serverError
  | duplicate
  | ok (r : Record)
deriving DecidableEq

/-- Success of the three remote calls made on the upload path: the dedup
read `sheet.get_all_records()` at line 114 (whose failure propagates to the
route's handler, 500), and the two calls inside `append_to_google_sheet`
(whose failures are swallowed there). -/
structure RemoteFlags where
  dedupReadOk : Bool
  ensureOk : Bool
  appendOk : Bool
deriving DecidableEq

def allOk : RemoteFlags := ⟨true, true, true⟩

/-- The loop of server.py lines 115-117: some existing record's "Phone"
value equals the new phone (`record.get("Phone") == parsed_details["phone"]`). -/
def has_duplicate_phone (rows : List (List String)) (phone : String) : Bool :=
  (get_all_records rows).any (fun p => dictGet p.1 p.2 "Phone" == some phone)

/-- server.py lines 99-130 (`upload_resume`), after the file has been
accepted and saved: `text` is the extracted text, `parsed` the
collaborator's fields, `uf` the generated unique filename (used as the id)
and `fn` the sanitized filename. Note the cache insertion at line 122
happens before the append at line 123. -/
def upload_resume (st : ServerState) (text : String) (parsed : Parsed)
    (uf fn : String) (fl : RemoteFlags) : UploadOutcome × ServerState :=
  if blankText text then (UploadOutcome.extractionFailed, st)
  else if !fl.dedupReadOk then (UploadOutcome.serverError, st)
  else if has_duplicate_phone st.rows parsed.phone then
    (UploadOutcome.duplicate, st)
  else
    let r := mkRecord uf fn parsed
    let resumes1 := dictInsert st.resumes uf r
    let rows1 := append_to_google_sheet st.rows r fl.ensureOk fl.appendOk
    (UploadOutcome.ok r, ⟨rows1, resumes1⟩)

inductive ListOutcome where
  | ok (recs : List Record)
  | serverError
deriving DecidableEq

/-- server.py lines 132-140 (`get_all_resumes`). The except branch is
unreachable because `fetch_resumes_from_sheets` catches its own exceptions,
so the endpoint always answers 200 with the cache contents. -/
def get_all_resumes (st : ServerState) (fetchOk : Bool) :
    ListOutcome × ServerState :=
  let st1 := fetch_resumes_from_sheets st fetchOk
  (ListOutcome.ok (st1.resumes.map Prod.snd), st1)

inductive GetOutcome where
  | ok (r : Record)
  | notFound
deriving DecidableEq

/-- server.py lines 142-152 (`get_resume`). -/
def get_resume (st : ServerState) (rid : String) (fetchOk : Bool) :
    GetOutcome × ServerState :=
  let st1 := fetch_resumes_from_sheets st fetchOk
  match lookupDict st1.resumes rid with
  | none => (GetOutcome.notFound, st1)
  | some r => (GetOutcome.ok r, st1)

inductive DeleteOutcome where
  | ok
  | notFound
  | serverError
deriving DecidableEq

/-- The loop of server.py lines 166-170: delete the first row whose first
cell equals the id, then stop; empty rows are skipped by the test
`if row and row[0] == resume_id`. -/
def delete_first_row (rid : String) : List (List String) → List (List String)
  | [] => []
  | [] :: rest => [] :: delete_first_row rid rest
  | (c :: cs) :: rest =>
    if c == rid then rest else (c :: cs) :: delete_first_row rid rest

/-- server.py lines 154-176 (`delete_resume`). `valuesOk` models the direct
`sheet.get_all_values()` call at line 165, whose failure IS caught by the
route's own handler (500) — but only after the cache entry was already
deleted at line 163. -/
def delete_resume (st : ServerState) (rid : String) (fetchOk valuesOk : Bool) :
    DeleteOutcome × ServerState :=
  let st1 := fetch_resumes_from_sheets st fetchOk
  match lookupDict st1.resumes rid with
  | none => (DeleteOutcome.notFound, st1)
  | some _ =>
    let resumes1 := dictErase st1.resumes rid
    if !valuesOk then (DeleteOutcome.serverError, ⟨st1.rows, resumes1⟩)
    else (DeleteOutcome.ok, ⟨delete_first_row rid st1.rows, resumes1⟩)

/-- The ID cell of a sheet row (column 0 of the fixed layout). -/
def rowID (r : List String) : String := r.getD 0 ""

/-- The Phone cell of a sheet row (column 4 of the fixed layout). -/
def rowPhone (r : List String) : String := r.getD 4 ""

/-- The non-empty IDs of the data rows, in order. -/
def dataIds (data : List (List String)) : List String :=
  (data.map rowID).filter (fun s => !(s == ""))

/-- The non-empty Phone values of the data rows, in order. -/
def dataPhones (data : List (List String)) : List String :=
  (data.map rowPhone).filter (fun s => !(s == ""))

/-- The number of records a (successful) List call returns:
`get_all_resumes` answers with the cache values right after a refresh. -/
def list_len (st : ServerState) : Nat :=
  ((fetch_resumes_from_sheets st true).resumes).length

/-- The non-empty Phone values of a sheet's data rows (everything after the
header row). -/
def sheetPhones (rows : List (List String)) : List String :=
  match rows with
  | [] => []
  | _ :: data => dataPhones data

/-- The non-empty IDs carried by a list of fetched records. -/
def neIds (recs : List (List String × List String)) : List String :=
  (recs.map entryId).filter (fun s => !(s == ""))

theorem splitCS_ne_nil : ∀ l : List Char, splitCS l ≠ []
  | [] => by simp [splitCS]
  | [c] => by simp [splitCS]
  | c :: d :: rest => by
    simp only [splitCS]
    split
    · simp
    · have h := splitCS_ne_nil (d :: rest)
      cases hsp : splitCS (d :: rest) with
      | nil => exact absurd hsp h
      | cons a t => simp [hsp, List.modifyHead]

theorem splitCS_sep (x t : List Char) (hx : splitCS x = [x]) :
    splitCS (x ++ ',' :: ' ' :: t) = x :: splitCS t := by
  induction x with
  | nil =>
    simp [splitCS]
  | cons c x ih =>
    cases x with
    | nil =>
      have h1 : splitCS (c :: ',' :: ' ' :: t)
          = (splitCS (',' :: ' ' :: t)).modifyHead (fun l => c :: l) := by
        show (if c = ',' ∧ (',' : Char) = ' ' then [] :: splitCS (' ' :: t)
              else (splitCS (',' :: ' ' :: t)).modifyHead (fun l => c :: l)) = _
        rw [if_neg (by rintro ⟨-, h⟩; exact absurd h (by decide))]
      have h2 : splitCS (',' :: ' ' :: t) = [] :: splitCS t := rfl
      rw [List.cons_append, List.nil_append, h1, h2]
      rfl
    | cons c' x' =>
      simp only [splitCS] at hx
      by_cases hcd : c = ',' ∧ c' = ' '
      · rw [if_pos hcd] at hx
        simp at hx
      · rw [if_neg hcd] at hx
        have hne := splitCS_ne_nil (c' :: x')
        cases hsp : splitCS (c' :: x') with
        | nil => exact absurd hsp hne
        | cons a s =>
          rw [hsp] at hx
          simp only [List.modifyHead, List.cons.injEq, true_and] at hx
          obtain ⟨ha, hs⟩ := hx
          have hx' : splitCS (c' :: x') = [c' :: x'] := by rw [hsp, ha, hs]
          have ih' := ih hx'
          simp only [List.cons_append, splitCS]
          rw [if_neg hcd]
          show List.modifyHead (fun l => c :: l)
              (splitCS ((c' :: x') ++ ',' :: ' ' :: t)) = (c :: c' :: x') :: splitCS t
          rw [ih']
          simp [List.modifyHead]

theorem splitCS_joinCS (l : List (List Char)) (h0 : l ≠ [])
    (h1 : ∀ x ∈ l, splitCS x = [x]) : splitCS (joinCS l) = l := by
  induction l with
  | nil => exact absurd rfl h0
  | cons x l ih =>
    cases l with
    | nil => simpa [joinCS] using h1 x (by simp)
    | cons y ys =>
      have hx := h1 x (by simp)
      show splitCS (joinCS (x :: y :: ys)) = x :: y :: ys
      rw [show joinCS (x :: y :: ys) = x ++ ',' :: ' ' :: joinCS (y :: ys) from rfl]
      rw [splitCS_sep _ _ hx, ih (by simp) (fun z hz => h1 z (by simp [hz]))]

theorem pySplit_pyJoin (l : List String) (h0 : l ≠ [])
    (h1 : ∀ s ∈ l, pySplitCS s = [s]) : pySplitCS (pyJoinCS l) = l := by
  have hdata : ∀ s ∈ l, splitCS s.data = [s.data] := by
    intro s hs
    have h := h1 s hs
    unfold pySplitCS at h
    cases hsp : splitCS s.data with
    | nil => exact absurd hsp (splitCS_ne_nil _)
    | cons a tl =>
      rw [hsp] at h
      simp only [List.map_cons, List.cons.injEq] at h
      obtain ⟨ha, htl⟩ := h
      have htl' : tl = [] := List.map_eq_nil_iff.mp htl
      have ha' : a = s.data := by rw [← ha]
      rw [htl', ha']
  unfold pySplitCS pyJoinCS
  have hmk : (String.mk (joinCS (l.map String.data))).data = joinCS (l.map String.data) := rfl
  rw [hmk]
  rw [splitCS_joinCS (l.map String.data) (by simpa using h0)
    (by intro x hx
        obtain ⟨s, hs, rfl⟩ := List.mem_map.mp hx
        exact hdata s hs)]
  rw [List.map_map]
  have hid : ∀ s : String, (String.mk ∘ String.data) s = s := fun s => rfl
  rw [List.map_congr_left (fun s _ => hid s)]
  exact List.map_id l

theorem find_replace (m : List (String × Record)) (k : String) (v : Record)
    (h : m.any (fun p => p.1 == k) = true) :
    (m.map (fun p => if p.1 == k then (k, v) else p)).find? (fun p => p.1 == k)
      = some (k, v) := by
  induction m with
  | nil => simp at h
  | cons p m ih =>
    by_cases hp : p.1 = k
    · rw [List.map_cons, if_pos (beq_iff_eq.mpr hp)]
      simp
    · have hp' : (p.1 == k) = false := beq_eq_false_iff_ne.mpr hp
      have h' : m.any (fun p => p.1 == k) = true := by
        simpa [List.any_cons, hp'] using h
      rw [List.map_cons, if_neg (by simp [hp'])]
      rw [@List.find?_cons_of_neg _ (fun q => q.1 == k) p _ (by simp [hp'])]
      exact ih h'

theorem find_replace_ne (m : List (String × Record)) (k : String) (v : Record)
    (k' : String) (hne : k' ≠ k) :
    (m.map (fun p => if p.1 == k then (k, v) else p)).find? (fun p => p.1 == k')
      = m.find? (fun p => p.1 == k') := by
  induction m with
  | nil => rfl
  | cons p m ih =>
    by_cases hp : p.1 = k
    · have h1 : ((k, v).1 == k') = false := beq_eq_false_iff_ne.mpr (fun e => hne e.symm)
      have h2 : (p.1 == k') = false :=
        beq_eq_false_iff_ne.mpr (by rw [hp]; exact fun e => hne e.symm)
      rw [List.map_cons, if_pos (beq_iff_eq.mpr hp)]
      rw [@List.find?_cons_of_neg _ (fun q => q.1 == k') (k, v) _ (by simp [h1])]
      rw [@List.find?_cons_of_neg _ (fun q => q.1 == k') p _ (by simp [h2])]
      exact ih
    · have hp' : (p.1 == k) = false := beq_eq_false_iff_ne.mpr hp
      rw [List.map_cons, if_neg (by simp [hp'])]
      cases hq : (p.1 == k') with
      | true =>
        rw [@List.find?_cons_of_pos _ (fun q => q.1 == k') p _ hq]
        rw [@List.find?_cons_of_pos _ (fun q => q.1 == k') p _ hq]
      | false =>
        rw [@List.find?_cons_of_neg _ (fun q => q.1 == k') p _ (by simp [hq])]
        rw [@List.find?_cons_of_neg _ (fun q => q.1 == k') p _ (by simp [hq])]
        exact ih

theorem lookup_dictInsert_self (m : List (String × Record)) (k : String) (v : Record) :
    lookupDict (dictInsert m k v) k = some v := by
  unfold lookupDict dictInsert
  by_cases h : m.any (fun p => p.1 == k) = true
  · rw [if_pos h, find_replace m k v h]
    rfl
  · rw [if_neg h, List.find?_append]
    have hnone : m.find? (fun p => p.1 == k) = none := by
      rw [List.find?_eq_none]
      intro p hp hbeq
      exact h (List.any_eq_true.mpr ⟨p, hp, hbeq⟩)
    rw [hnone]
    simp [List.find?]

theorem lookup_dictInsert_ne (m : List (String × Record)) (k : String) (v : Record)
    (k' : String) (hne : k' ≠ k) :
    lookupDict (dictInsert m k v) k' = lookupDict m k' := by
  unfold lookupDict dictInsert
  by_cases h : m.any (fun p => p.1 == k) = true
  · rw [if_pos h, find_replace_ne m k v k' hne]
  · rw [if_neg h, List.find?_append]
    have h1 : ((k, v).1 == k') = false := beq_eq_false_iff_ne.mpr (fun e => hne e.symm)
    simp [List.find?, h1]

theorem dictInsert_not_any (m : List (String × Record)) (k : String) (v : Record)
    (h : m.any (fun p => p.1 == k) = false) :
    dictInsert m k v = m ++ [(k, v)] := by
  unfold dictInsert
  rw [if_neg (by simp [h])]

theorem neIds_cons (p : List String × List String)
    (recs : List (List String × List String)) :
    neIds (p :: recs)
      = if entryId p = "" then neIds recs else entryId p :: neIds recs := by
  by_cases h : entryId p = ""
  · simp [neIds, List.filter_cons, h]
  · simp [neIds, List.filter_cons, h]

theorem foldl_cacheStep_lookup_ne (recs : List (List String × List String))
    (m : List (String × Record)) (rid : String) (hrid : rid ∉ neIds recs) :
    lookupDict (recs.foldl cacheStep m) rid = lookupDict m rid := by
  induction recs generalizing m with
  | nil => rfl
  | cons p recs ih =>
    rw [neIds_cons] at hrid
    simp only [List.foldl_cons]
    by_cases hp : entryId p = ""
    · rw [if_pos hp] at hrid
      have hstep : cacheStep m p = m := by
        unfold cacheStep
        rw [if_pos (beq_iff_eq.mpr hp)]
      rw [hstep]
      exact ih m hrid
    · rw [if_neg hp] at hrid
      have hne : rid ≠ entryId p := fun e => hrid (by rw [e]; exact List.mem_cons_self _ _)
      have hmem : rid ∉ neIds recs := fun e => hrid (List.mem_cons_of_mem _ e)
      have hstep : cacheStep m p = dictInsert m (entryId p) (rowToRecord p.1 p.2) := by
        unfold cacheStep
        rw [if_neg (by simp [hp])]
      rw [hstep, ih _ hmem, lookup_dictInsert_ne _ _ _ _ hne]

theorem foldl_cacheStep_length (recs : List (List String × List String))
    (m : List (String × Record)) (hnd : (neIds recs).Nodup)
    (hdis : ∀ q ∈ m, q.1 ∉ neIds recs) :
    (recs.foldl cacheStep m).length = m.length + (neIds recs).length := by
  induction recs generalizing m with
  | nil => rfl
  | cons p recs ih =>
    rw [neIds_cons] at hnd hdis ⊢
    simp only [List.foldl_cons]
    by_cases hp : entryId p = ""
    · rw [if_pos hp] at hnd hdis ⊢
      have hstep : cacheStep m p = m := by
        unfold cacheStep
        rw [if_pos (beq_iff_eq.mpr hp)]
      rw [hstep]
      exact ih m hnd hdis
    · rw [if_neg hp] at hnd hdis ⊢
      obtain ⟨hnotin, hnd'⟩ := List.nodup_cons.mp hnd
      have hany : m.any (fun q => q.1 == entryId p) = false := by
        rw [List.any_eq_false]
        intro q hq
        simp only [beq_iff_eq]
        exact fun e => hdis q hq (by rw [e]; exact List.mem_cons_self _ _)
      have hstep : cacheStep m p = m ++ [(entryId p, rowToRecord p.1 p.2)] := by
        unfold cacheStep
        rw [if_neg (by simp [hp])]
        exact dictInsert_not_any _ _ _ hany
      rw [hstep, ih _ hnd']
      · simp only [List.length_append, List.length_cons, List.length_nil]
        omega
      · intro q hq
        rcases List.mem_append.mp hq with hq1 | hq2
        · exact fun e => hdis q hq1 (List.mem_cons_of_mem _ e)
        · have : q = (entryId p, rowToRecord p.1 p.2) := by simpa using hq2
          rw [this]
          exact hnotin

theorem foldl_cacheStep_lookup_mem (recs : List (List String × List String))
    (m : List (String × Record)) (rid : String) (hrid : rid ∈ neIds recs) :
    ∃ v, lookupDict (recs.foldl cacheStep m) rid = some v := by
  induction recs generalizing m with
  | nil => simp [neIds] at hrid
  | cons p recs ih =>
    rw [neIds_cons] at hrid
    simp only [List.foldl_cons]
    by_cases hp : entryId p = ""
    · rw [if_pos hp] at hrid
      have hstep : cacheStep m p = m := by
        unfold cacheStep
        rw [if_pos (beq_iff_eq.mpr hp)]
      rw [hstep]
      exact ih m hrid
    · rw [if_neg hp] at hrid
      have hstep : cacheStep m p = dictInsert m (entryId p) (rowToRecord p.1 p.2) := by
        unfold cacheStep
        rw [if_neg (by simp [hp])]
      rw [hstep]
      by_cases hmem : rid ∈ neIds recs
      · exact ih _ hmem
      · have heq : rid = entryId p := by
          rcases List.mem_cons.mp hrid with h | h
          · exact h
          · exact absurd h hmem
        refine ⟨rowToRecord p.1 p.2, ?_⟩
        rw [foldl_cacheStep_lookup_ne recs _ rid hmem, heq,
          lookup_dictInsert_self]

theorem ensure_headers_expected (data : List (List String)) :
    ensure_headers (EXPECTED_HEADERS :: data) = EXPECTED_HEADERS :: data := by
  unfold ensure_headers
  rw [if_neg]
  rw [show firstRowEmpty (EXPECTED_HEADERS :: data)
      = EXPECTED_HEADERS.all (fun c => c == "") from rfl]
  decide

theorem entryId_expected (r : List String) :
    entryId (EXPECTED_HEADERS, r) = rowID r := rfl

theorem dictGet_phone_expected (r : List String) :
    dictGet EXPECTED_HEADERS r "Phone" = some (rowPhone r) := rfl

theorem neIds_records (data : List (List String)) :
    neIds (get_all_records (EXPECTED_HEADERS :: data)) = dataIds data := by
  unfold neIds get_all_records dataIds
  rw [List.map_map]
  rfl

theorem fetch_wf (data : List (List String)) (m : List (String × Record)) :
    fetch_resumes_from_sheets ⟨EXPECTED_HEADERS :: data, m⟩ true
      = ⟨EXPECTED_HEADERS :: data,
         build_cache (get_all_records (EXPECTED_HEADERS :: data))⟩ := by
  unfold fetch_resumes_from_sheets
  rw [show (!true) = false from rfl, if_neg (by simp)]
  rw [show (⟨EXPECTED_HEADERS :: data, m⟩ : ServerState).rows
      = EXPECTED_HEADERS :: data from rfl]
  rw [ensure_headers_expected]

theorem list_len_eq (data : List (List String)) (m : List (String × Record))
    (hnd : (dataIds data).Nodup) :
    list_len ⟨EXPECTED_HEADERS :: data, m⟩ = (dataIds data).length := by
  unfold list_len
  rw [fetch_wf]
  show (build_cache (get_all_records (EXPECTED_HEADERS :: data))).length = _
  unfold build_cache
  rw [foldl_cacheStep_length _ _ (by rw [neIds_records]; exact hnd) (by simp)]
  rw [neIds_records]
  simp

theorem lookup_build_not_mem (data : List (List String)) (rid : String)
    (h : rid ∉ dataIds data) :
    lookupDict (build_cache (get_all_records (EXPECTED_HEADERS :: data))) rid
      = none := by
  unfold build_cache
  rw [foldl_cacheStep_lookup_ne _ _ _ (by rw [neIds_records]; exact h)]
  rfl

theorem lookup_build_mem (data : List (List String)) (rid : String)
    (h : rid ∈ dataIds data) :
    ∃ v, lookupDict (build_cache (get_all_records (EXPECTED_HEADERS :: data))) rid
      = some v := by
  unfold build_cache
  exact foldl_cacheStep_lookup_mem _ _ _ (by rw [neIds_records]; exact h)

theorem has_duplicate_phone_iff (data : List (List String)) (phone : String) :
    has_duplicate_phone (EXPECTED_HEADERS :: data) phone = true
      ↔ ∃ r ∈ data, rowPhone r = phone := by
  unfold has_duplicate_phone
  rw [show get_all_records (EXPECTED_HEADERS :: data)
      = data.map (fun r => (EXPECTED_HEADERS, r)) from rfl]
  rw [List.any_eq_true]
  constructor
  · rintro ⟨x, hx, hbeq⟩
    obtain ⟨r, hr, rfl⟩ := List.mem_map.mp hx
    refine ⟨r, hr, ?_⟩
    have h2 : dictGet EXPECTED_HEADERS r "Phone" = some phone := by
      simpa using hbeq
    rw [dictGet_phone_expected] at h2
    simpa using h2
  · rintro ⟨r, hr, heq⟩
    refine ⟨(EXPECTED_HEADERS, r), List.mem_map_of_mem _ hr, ?_⟩
    show (dictGet EXPECTED_HEADERS r "Phone" == some phone) = true
    rw [dictGet_phone_expected, heq]
    simp

theorem dataIds_cons (r : List String) (rest : List (List String)) :
    dataIds (r :: rest)
      = if rowID r = "" then dataIds rest else rowID r :: dataIds rest := by
  by_cases h : rowID r = ""
  · simp [dataIds, List.filter_cons, h]
  · simp [dataIds, List.filter_cons, h]

theorem dataPhones_cons (r : List String) (rest : List (List String)) :
    dataPhones (r :: rest)
      = if rowPhone r = "" then dataPhones rest else rowPhone r :: dataPhones rest := by
  by_cases h : rowPhone r = ""
  · simp [dataPhones, List.filter_cons, h]
  · simp [dataPhones, List.filter_cons, h]

theorem dataPhones_append (data : List (List String)) (row : List String) :
    dataPhones (data ++ [row])
      = dataPhones data ++ (if rowPhone row = "" then [] else [rowPhone row]) := by
  by_cases h : rowPhone row = ""
  · simp [dataPhones, List.filter_append, List.filter_cons, h]
  · simp [dataPhones, List.filter_append, List.filter_cons, h]

theorem mem_dataPhones (data : List (List String)) (x : String)
    (h : x ∈ dataPhones data) : ∃ r ∈ data, rowPhone r = x := by
  unfold dataPhones at h
  have h1 := List.mem_of_mem_filter h
  obtain ⟨r, hr, heq⟩ := List.mem_map.mp h1
  exact ⟨r, hr, heq⟩

theorem mem_dataIds_ne_empty (data : List (List String)) (x : String)
    (h : x ∈ dataIds data) : x ≠ "" := by
  unfold dataIds at h
  have h2 := List.of_mem_filter h
  simpa using h2

theorem delete_first_row_expected (data : List (List String)) (rid : String)
    (h : rid ≠ "ID") :
    delete_first_row rid (EXPECTED_HEADERS :: data)
      = EXPECTED_HEADERS :: delete_first_row rid data := by
  rw [show delete_first_row rid (EXPECTED_HEADERS :: data)
      = if "ID" == rid then data
        else EXPECTED_HEADERS :: delete_first_row rid data from rfl]
  rw [if_neg (by simp only [beq_iff_eq]; exact Ne.symm h)]

theorem dataIds_delete (data : List (List String)) (rid : String)
    (hmem : rid ∈ dataIds data) (hnd : (dataIds data).Nodup) :
    dataIds (delete_first_row rid data) = (dataIds data).erase rid := by
  induction data with
  | nil => simp [dataIds] at hmem
  | cons r rest ih =>
    cases r with
    | nil =>
      rw [show delete_first_row rid ([] :: rest)
          = [] :: delete_first_row rid rest from rfl]
      have h0 : rowID ([] : List String) = "" := rfl
      rw [dataIds_cons, h0, if_pos rfl] at hmem hnd
      rw [dataIds_cons ([] : List String) (delete_first_row rid rest), h0,
        if_pos rfl, dataIds_cons ([] : List String) rest, h0, if_pos rfl]
      exact ih hmem hnd
    | cons c cs =>
      have hrow : rowID (c :: cs) = c := rfl
      by_cases hc : c = rid
      · have hdel : delete_first_row rid ((c :: cs) :: rest) = rest := by
          show (if c == rid then rest
                else (c :: cs) :: delete_first_row rid rest) = rest
          rw [if_pos (beq_iff_eq.mpr hc)]
        have hne : rid ≠ "" := mem_dataIds_ne_empty _ _ hmem
        rw [hdel, dataIds_cons, hrow, hc, if_neg hne, List.erase_cons_head]
      · have hdel : delete_first_row rid ((c :: cs) :: rest)
            = (c :: cs) :: delete_first_row rid rest := by
          show (if c == rid then rest
                else (c :: cs) :: delete_first_row rid rest) = _
          rw [if_neg (by simp only [beq_iff_eq]; exact hc)]
        rw [hdel]
        rw [dataIds_cons (c :: cs) rest, hrow] at hmem hnd
        rw [dataIds_cons (c :: cs) (delete_first_row rid rest), hrow,
          dataIds_cons (c :: cs) rest, hrow]
        by_cases hce : c = ""
        · rw [if_pos hce] at hmem hnd
          rw [if_pos hce, if_pos hce]
          exact ih hmem hnd
        · rw [if_neg hce] at hmem hnd
          rw [if_neg hce, if_neg hce]
          have hmem' : rid ∈ dataIds rest := by
            rcases List.mem_cons.mp hmem with h | h
            · exact absurd h.symm hc
            · exact h
          obtain ⟨-, hnd'⟩ := List.nodup_cons.mp hnd
          rw [List.erase_cons_tail (by simp only [beq_iff_eq]; exact hc)]
          rw [ih hmem' hnd']

theorem blankText_of_whitespace (s : String) (h : ∀ c ∈ s.data, c.isWhitespace) :
    blankText s = true := by
  unfold blankText pyStripChars
  have h1 : s.data.dropWhile Char.isWhitespace = [] :=
    List.dropWhile_eq_nil_iff.mpr (fun c hc => h c hc)
  rw [h1]
  rfl

theorem upload_success (st : ServerState) (text : String) (parsed : Parsed)
    (uf fn : String) (fl : RemoteFlags)
    (hblank : blankText text = false)
    (hok : fl.dedupReadOk = true)
    (hdup : has_duplicate_phone st.rows parsed.phone = false) :
    upload_resume st text parsed uf fn fl =
      (UploadOutcome.ok (mkRecord uf fn parsed),
       ⟨append_to_google_sheet st.rows (mkRecord uf fn parsed) fl.ensureOk fl.appendOk,
        dictInsert st.resumes uf (mkRecord uf fn parsed)⟩) := by
  unfold upload_resume
  rw [hblank, hok, hdup]
  rfl

theorem upload_duplicate (st : ServerState) (text : String) (parsed : Parsed)
    (uf fn : String) (fl : RemoteFlags)
    (hblank : blankText text = false)
    (hok : fl.dedupReadOk = true)
    (hdup : has_duplicate_phone st.rows parsed.phone = true) :
    upload_resume st text parsed uf fn fl = (UploadOutcome.duplicate, st) := by
  unfold upload_resume
  rw [hblank, hok, hdup]
  rfl

theorem append_all_ok (data : List (List String)) (r : Record) :
    append_to_google_sheet (EXPECTED_HEADERS :: data) r true true
      = EXPECTED_HEADERS :: (data ++ [serializeRow r]) := by
  unfold append_to_google_sheet
  rw [show (!true) = false from rfl, if_neg (by simp), if_neg (by simp)]
  rw [ensure_headers_expected]
  rfl

theorem rowToRecord_serialize (r : Record) (h0 : r.skills ≠ [])
    (h1 : ∀ s ∈ r.skills, pySplitCS s = [s]) :
    rowToRecord EXPECTED_HEADERS (serializeRow r) = r := by
  obtain ⟨i, f, n, e, p, li, g, sk⟩ := r
  show Record.mk _ _ _ _ _ _ _ _ = Record.mk i f n e p li g sk
  rw [Record.mk.injEq]
  refine ⟨rfl, rfl, rfl, rfl, rfl, rfl, rfl, ?_⟩
  show pySplitCS (pyJoinCS sk) = sk
  exact pySplit_pyJoin sk h0 h1

theorem build_cache_append_lookup (data : List (List String)) (row : List String)
    (hid : rowID row ≠ "") :
    lookupDict
      (build_cache (get_all_records (EXPECTED_HEADERS :: (data ++ [row]))))
      (rowID row) = some (rowToRecord EXPECTED_HEADERS row) := by
  rw [show get_all_records (EXPECTED_HEADERS :: (data ++ [row]))
      = (data.map (fun r => (EXPECTED_HEADERS, r)))
        ++ [(EXPECTED_HEADERS, row)] from by
    rw [show get_all_records (EXPECTED_HEADERS :: (data ++ [row]))
        = (data ++ [row]).map (fun r => (EXPECTED_HEADERS, r)) from rfl]
    rw [List.map_append]
    rfl]
  unfold build_cache
  rw [List.foldl_append]
  rw [show List.foldl cacheStep
        (List.foldl cacheStep [] (data.map (fun r => (EXPECTED_HEADERS, r))))
        [(EXPECTED_HEADERS, row)]
      = cacheStep
        (List.foldl cacheStep [] (data.map (fun r => (EXPECTED_HEADERS, r))))
        (EXPECTED_HEADERS, row) from rfl]
  unfold cacheStep
  rw [if_neg (by simp only [beq_iff_eq]; exact hid)]
  rw [show entryId (EXPECTED_HEADERS, row) = rowID row from rfl]
  exact lookup_dictInsert_self _ _ _

theorem append_rows_cases (rows : List (List String)) (r : Record)
    (eo ao : Bool) (hwf : ensure_headers rows = rows) :
    append_to_google_sheet rows r eo ao = rows
      ∨ append_to_google_sheet rows r eo ao = rows ++ [serializeRow r] := by
  unfold append_to_google_sheet
  cases eo with
  | false => exact Or.inl rfl
  | true =>
    cases ao with
    | false =>
      refine Or.inl ?_
      rw [show (!true) = false from rfl, if_neg (by simp)]
      rw [hwf]
      rfl
    | true =>
      refine Or.inr ?_
      rw [show (!true) = false from rfl, if_neg (by simp), hwf]
      rfl

/-- C1: phone uniqueness. On a sheet holding the fixed header followed by
data rows whose non-empty Phone values are pairwise distinct, (a) any
single `upload_resume` call — whatever its inputs and whatever remote
failures occur — preserves that distinctness (so along every sequence of
Create calls at most one live record with a given non-empty phone exists),
and (b) a Create whose extracted phone equals the Phone of a row already
on the sheet fails with the duplicate error and returns the state
unchanged, so nothing is written and the record count is unchanged. -/
theorem c1_phone_uniqueness (st : ServerState) (data : List (List String))
    (text : String) (parsed : Parsed) (uf fn : String) (fl : RemoteFlags)
    (hrows : st.rows = EXPECTED_HEADERS :: data)
    (hnd : (dataPhones data).Nodup) :
    (sheetPhones (upload_resume st text parsed uf fn fl).2.rows).Nodup ∧
    ((∃ r ∈ data, rowPhone r = parsed.phone) → fl.dedupReadOk = true →
      blankText text = false →
      upload_resume st text parsed uf fn fl = (UploadOutcome.duplicate, st)) := by
  constructor
  · by_cases hb : blankText text = true
    · have hout : upload_resume st text parsed uf fn fl
          = (UploadOutcome.extractionFailed, st) := by
        unfold upload_resume
        rw [hb]
        rfl
      rw [hout, hrows]
      exact hnd
    · have hb' : blankText text = false := by simpa using hb
      by_cases hok : fl.dedupReadOk = true
      · by_cases hdup : has_duplicate_phone st.rows parsed.phone = true
        · rw [upload_duplicate st text parsed uf fn fl hb' hok hdup, hrows]
          exact hnd
        · have hdup' : has_duplicate_phone st.rows parsed.phone = false := by
            simpa using hdup
          rw [upload_success st text parsed uf fn fl hb' hok hdup']
          show (sheetPhones (append_to_google_sheet st.rows
            (mkRecord uf fn parsed) fl.ensureOk fl.appendOk)).Nodup
          rcases append_rows_cases st.rows (mkRecord uf fn parsed)
              fl.ensureOk fl.appendOk
              (by rw [hrows, ensure_headers_expected]) with hc | hc
          · rw [hc, hrows]
            exact hnd
          · rw [hc, hrows]
            show (dataPhones (data ++ [serializeRow (mkRecord uf fn parsed)])).Nodup
            rw [dataPhones_append]
            have hphone : rowPhone (serializeRow (mkRecord uf fn parsed))
                = parsed.phone := rfl
            by_cases hpe : parsed.phone = ""
            · rw [hphone, if_pos hpe]
              simpa using hnd
            · rw [hphone, if_neg hpe]
              refine List.Nodup.append hnd (List.nodup_singleton _) ?_
              intro x hx hxs
              have hxp : x = parsed.phone := by simpa using hxs
              obtain ⟨r, hr, hrp⟩ := mem_dataPhones data x hx
              rw [hrows] at hdup'
              have hno := (has_duplicate_phone_iff data parsed.phone).not.mp
                (by simp [hdup'])
              exact hno ⟨r, hr, by rw [hrp, hxp]⟩
      · have hok' : fl.dedupReadOk = false := by simpa using hok
        have hout : upload_resume st text parsed uf fn fl
            = (UploadOutcome.serverError, st) := by
          unfold upload_resume
          rw [hb', hok']
          rfl
        rw [hout, hrows]
        exact hnd
  · intro hex hok hblank
    refine upload_duplicate st text parsed uf fn fl hblank hok ?_
    rw [hrows]
    exact (has_duplicate_phone_iff data parsed.phone).mpr hex

/-- C1 witness: a concrete sheet with one record (phone "555-0100"); a
second Create with the same phone fails with the duplicate error, leaves
the state unchanged, and uniqueness of the stored phones is preserved. -/
theorem c1_phone_uniqueness_witness :
    (sheetPhones (upload_resume
        ⟨[EXPECTED_HEADERS, ["r1", "a.pdf", "A", "a@x", "555-0100", "", "", "go"]], []⟩
        "some text" ⟨"B", "b@x", "555-0100", "", "", ["ml"]⟩ "uf2" "b.pdf"
        allOk).2.rows).Nodup ∧
    upload_resume
        ⟨[EXPECTED_HEADERS, ["r1", "a.pdf", "A", "a@x", "555-0100", "", "", "go"]], []⟩
        "some text" ⟨"B", "b@x", "555-0100", "", "", ["ml"]⟩ "uf2" "b.pdf" allOk
      = (UploadOutcome.duplicate,
         ⟨[EXPECTED_HEADERS, ["r1", "a.pdf", "A", "a@x", "555-0100", "", "", "go"]], []⟩) := by
  have h := c1_phone_uniqueness
    ⟨[EXPECTED_HEADERS, ["r1", "a.pdf", "A", "a@x", "555-0100", "", "", "go"]], []⟩
    [["r1", "a.pdf", "A", "a@x", "555-0100", "", "", "go"]]
    "some text" ⟨"B", "b@x", "555-0100", "", "", ["ml"]⟩ "uf2" "b.pdf" allOk
    rfl (by decide)
  exact ⟨h.1, h.2 (by decide) rfl (by decide)⟩

/-- C2 counterexample: with a remote append failure, Create does NOT fail:
it returns the parsed record as a success, the new record IS in the cache,
and the sheet is unchanged — the exception is swallowed inside
`append_to_google_sheet` (server.py lines 59-60) and the cache was already
updated at line 122, before the append. -/
theorem c2_persist_failure_counterexample :
    (upload_resume ⟨[EXPECTED_HEADERS], []⟩ "text" ⟨"n", "e", "p", "l", "g", ["s"]⟩
        "uf" "f.pdf" ⟨true, true, false⟩).1
      = UploadOutcome.ok ⟨"uf", "f.pdf", "n", "e", "p", "l", "g", ["s"]⟩ ∧
    lookupDict (upload_resume ⟨[EXPECTED_HEADERS], []⟩ "text"
        ⟨"n", "e", "p", "l", "g", ["s"]⟩ "uf" "f.pdf" ⟨true, true, false⟩).2.resumes "uf"
      = some ⟨"uf", "f.pdf", "n", "e", "p", "l", "g", ["s"]⟩ ∧
    (upload_resume ⟨[EXPECTED_HEADERS], []⟩ "text" ⟨"n", "e", "p", "l", "g", ["s"]⟩
        "uf" "f.pdf" ⟨true, true, false⟩).2.rows = [EXPECTED_HEADERS] := by
  decide

/-- C2 amended: when the remote append fails inside
`append_to_google_sheet`, the failure is caught and only logged: Create
still returns the record as a success, the record has already been
inserted into the cache (and is found there), and the remote sheet is left
unchanged — so cache and remote DO diverge on this path. -/
theorem c2_append_failure_swallowed (st : ServerState) (data : List (List String))
    (text : String) (parsed : Parsed) (uf fn : String)
    (hrows : st.rows = EXPECTED_HEADERS :: data)
    (hblank : blankText text = false)
    (hdup : has_duplicate_phone st.rows parsed.phone = false) :
    upload_resume st text parsed uf fn ⟨true, true, false⟩
      = (UploadOutcome.ok (mkRecord uf fn parsed),
         ⟨st.rows, dictInsert st.resumes uf (mkRecord uf fn parsed)⟩) ∧
    lookupDict (dictInsert st.resumes uf (mkRecord uf fn parsed)) uf
      = some (mkRecord uf fn parsed) := by
  constructor
  · rw [upload_success st text parsed uf fn ⟨true, true, false⟩ hblank rfl hdup]
    have happ : append_to_google_sheet st.rows (mkRecord uf fn parsed) true false
        = ensure_headers st.rows := by
      unfold append_to_google_sheet
      rw [show (!true) = false from rfl, if_neg (by simp)]
      rfl
    rw [happ, hrows, ensure_headers_expected]
  · exact lookup_dictInsert_self _ _ _

/-- C2 amended witness: concrete failing append; Create answers success
and the cache holds the new record while the sheet is unchanged. -/
theorem c2_append_failure_swallowed_witness :
    upload_resume ⟨[EXPECTED_HEADERS], []⟩ "text" ⟨"n", "e", "p", "l", "g", ["s"]⟩
        "uf" "f.pdf" ⟨true, true, false⟩
      = (UploadOutcome.ok ⟨"uf", "f.pdf", "n", "e", "p", "l", "g", ["s"]⟩,
         ⟨[EXPECTED_HEADERS],
          [("uf", ⟨"uf", "f.pdf", "n", "e", "p", "l", "g", ["s"]⟩)]⟩) ∧
    lookupDict [("uf", (⟨"uf", "f.pdf", "n", "e", "p", "l", "g", ["s"]⟩ : Record))] "uf"
      = some ⟨"uf", "f.pdf", "n", "e", "p", "l", "g", ["s"]⟩ := by
  have h := c2_append_failure_swallowed ⟨[EXPECTED_HEADERS], []⟩ []
    "text" ⟨"n", "e", "p", "l", "g", ["s"]⟩ "uf" "f.pdf" rfl (by decide) (by decide)
  exact h

/-- C3 counterexample: the dedup loop at server.py line 116 compares
`record.get("Phone") == parsed_details["phone"]` with plain equality, so an
empty extracted phone DOES match an existing record whose Phone cell is
empty: the Create is rejected as a duplicate and nothing is written,
contradicting the claim that an empty phone never participates in
uniqueness. -/
theorem c3_empty_phone_counterexample :
    upload_resume
        ⟨[EXPECTED_HEADERS, ["r1", "a.pdf", "A", "a@x", "", "", "", "go"]], []⟩
        "text" ⟨"B", "b@x", "", "", "", ["ml"]⟩ "uf2" "b.pdf" allOk
      = (UploadOutcome.duplicate,
         ⟨[EXPECTED_HEADERS, ["r1", "a.pdf", "A", "a@x", "", "", "", "go"]], []⟩) := by
  decide

/-- C3 amended: an empty extracted phone is treated by the same equality
rule as any other value: the Create is rejected as a duplicate exactly when
some existing data row has an empty Phone cell; when every existing row has
a non-empty Phone, the empty-phone Create passes the scan and writes the
record. -/
theorem c3_empty_phone_dedup (st : ServerState) (data : List (List String))
    (text : String) (parsed : Parsed) (uf fn : String)
    (hrows : st.rows = EXPECTED_HEADERS :: data)
    (hphone : parsed.phone = "")
    (hblank : blankText text = false) :
    ((∃ r ∈ data, rowPhone r = "") →
       upload_resume st text parsed uf fn allOk = (UploadOutcome.duplicate, st)) ∧
    ((∀ r ∈ data, rowPhone r ≠ "") →
       upload_resume st text parsed uf fn allOk
         = (UploadOutcome.ok (mkRecord uf fn parsed),
            ⟨st.rows ++ [serializeRow (mkRecord uf fn parsed)],
             dictInsert st.resumes uf (mkRecord uf fn parsed)⟩)) := by
  constructor
  · intro hex
    refine upload_duplicate st text parsed uf fn allOk hblank rfl ?_
    rw [hrows, hphone]
    exact (has_duplicate_phone_iff data "").mpr hex
  · intro hall
    have hdup : has_duplicate_phone st.rows parsed.phone = false := by
      rw [hrows, hphone]
      rcases hh : has_duplicate_phone (EXPECTED_HEADERS :: data) "" with - | -
      · rfl
      · obtain ⟨r, hr, hrp⟩ := (has_duplicate_phone_iff data "").mp hh
        exact absurd hrp (hall r hr)
    rw [upload_success st text parsed uf fn allOk hblank rfl hdup]
    rw [show (allOk.ensureOk) = true from rfl, show (allOk.appendOk) = true from rfl]
    rw [hrows, append_all_ok, List.cons_append]

/-- C3 amended witness: with one existing empty-phone row the empty-phone
Create is rejected as duplicate; with one existing non-empty-phone row it
is accepted and its row is appended. -/
theorem c3_empty_phone_dedup_witness :
    upload_resume
        ⟨[EXPECTED_HEADERS, ["r1", "a.pdf", "A", "a@x", "", "", "", "go"]], []⟩
        "text" ⟨"B", "b@x", "", "", "", ["ml"]⟩ "uf2" "b.pdf" allOk
      = (UploadOutcome.duplicate,
         ⟨[EXPECTED_HEADERS, ["r1", "a.pdf", "A", "a@x", "", "", "", "go"]], []⟩) ∧
    upload_resume
        ⟨[EXPECTED_HEADERS, ["r1", "a.pdf", "A", "a@x", "7", "", "", "go"]], []⟩
        "text" ⟨"B", "b@x", "", "", "", ["ml"]⟩ "uf2" "b.pdf" allOk
      = (UploadOutcome.ok ⟨"uf2", "b.pdf", "B", "b@x", "", "", "", ["ml"]⟩,
         ⟨[EXPECTED_HEADERS, ["r1", "a.pdf", "A", "a@x", "7", "", "", "go"],
           ["uf2", "b.pdf", "B", "b@x", "", "", "", "ml"]],
          [("uf2", ⟨"uf2", "b.pdf", "B", "b@x", "", "", "", ["ml"]⟩)]⟩) := by
  constructor
  · exact (c3_empty_phone_dedup
      ⟨[EXPECTED_HEADERS, ["r1", "a.pdf", "A", "a@x", "", "", "", "go"]], []⟩
      [["r1", "a.pdf", "A", "a@x", "", "", "", "go"]]
      "text" ⟨"B", "b@x", "", "", "", ["ml"]⟩ "uf2" "b.pdf"
      rfl rfl (by decide)).1 (by decide)
  · have h := (c3_empty_phone_dedup
      ⟨[EXPECTED_HEADERS, ["r1", "a.pdf", "A", "a@x", "7", "", "", "go"]], []⟩
      [["r1", "a.pdf", "A", "a@x", "7", "", "", "go"]]
      "text" ⟨"B", "b@x", "", "", "", ["ml"]⟩ "uf2" "b.pdf"
      rfl rfl (by decide)).2 (by decide)
    rw [h]
    decide

/-- C4 counterexample: a List call whose remote refresh fails still
completes with a success result carrying the stale cache contents — the
exception is caught inside `fetch_resumes_from_sheets` (server.py line 84)
and `get_all_resumes` answers 200, so the remote failure is swallowed,
contradicting the claim that every remote failure surfaces as an error. -/
theorem c4_list_failure_counterexample :
    get_all_resumes ⟨[], [("k", ⟨"k", "f", "n", "e", "p", "l", "g", ["s"]⟩)]⟩ false
      = (ListOutcome.ok [⟨"k", "f", "n", "e", "p", "l", "g", ["s"]⟩],
         ⟨[], [("k", ⟨"k", "f", "n", "e", "p", "l", "g", ["s"]⟩)]⟩) := by
  decide

/-- C4 amended: error propagation is partial. The dedup read failure in
Create and the row-scan (`get_all_values`) failure in Delete do surface as
typed errors, but a failure of the cache-refresh remote read is swallowed:
List completes successfully, answering the stale cache contents unchanged. -/
theorem c4_error_propagation (st : ServerState) (text : String) (parsed : Parsed)
    (uf fn rid : String) (eo ao : Bool)
    (hblank : blankText text = false)
    (hrid : lookupDict (fetch_resumes_from_sheets st true).resumes rid ≠ none) :
    get_all_resumes st false = (ListOutcome.ok (st.resumes.map Prod.snd), st) ∧
    upload_resume st text parsed uf fn ⟨false, eo, ao⟩
      = (UploadOutcome.serverError, st) ∧
    (delete_resume st rid true false).1 = DeleteOutcome.serverError := by
  refine ⟨rfl, ?_, ?_⟩
  · unfold upload_resume
    rw [hblank]
    rfl
  · obtain ⟨v, hv⟩ := Option.ne_none_iff_exists'.mp hrid
    simp only [delete_resume]
    rw [hv]
    rfl

/-- C4 amended witness: a concrete stale cache is returned with success by
List under a remote failure; Create's dedup-read failure yields a server
error; Delete's row-scan failure yields a server error. -/
theorem c4_error_propagation_witness :
    get_all_resumes
        ⟨[EXPECTED_HEADERS, ["k", "f", "n", "e", "p", "l", "g", "s"]],
         [("k", ⟨"k", "f", "n", "e", "p", "l", "g", ["s"]⟩)]⟩ false
      = (ListOutcome.ok [⟨"k", "f", "n", "e", "p", "l", "g", ["s"]⟩],
         ⟨[EXPECTED_HEADERS, ["k", "f", "n", "e", "p", "l", "g", "s"]],
          [("k", ⟨"k", "f", "n", "e", "p", "l", "g", ["s"]⟩)]⟩) ∧
    upload_resume
        ⟨[EXPECTED_HEADERS, ["k", "f", "n", "e", "p", "l", "g", "s"]],
         [("k", ⟨"k", "f", "n", "e", "p", "l", "g", ["s"]⟩)]⟩
        "text" ⟨"n", "e", "p2", "l", "g", ["s"]⟩ "uf" "f.pdf" ⟨false, true, true⟩
      = (UploadOutcome.serverError,
         ⟨[EXPECTED_HEADERS, ["k", "f", "n", "e", "p", "l", "g", "s"]],
          [("k", ⟨"k", "f", "n", "e", "p", "l", "g", ["s"]⟩)]⟩) ∧
    (delete_resume
        ⟨[EXPECTED_HEADERS, ["k", "f", "n", "e", "p", "l", "g", "s"]],
         [("k", ⟨"k", "f", "n", "e", "p", "l", "g", ["s"]⟩)]⟩ "k" true false).1
      = DeleteOutcome.serverError := by
  exact c4_error_propagation
    ⟨[EXPECTED_HEADERS, ["k", "f", "n", "e", "p", "l", "g", "s"]],
     [("k", ⟨"k", "f", "n", "e", "p", "l", "g", ["s"]⟩)]⟩
    "text" ⟨"n", "e", "p2", "l", "g", ["s"]⟩ "uf" "f.pdf" "k" true true
    (by decide) (by decide)

/-- C5 counterexample: Create with an empty skills list succeeds and
returns skills = [], but the subsequent Get of the same id returns
skills = [""]: the empty list does not survive join-with-", " followed by
split-on-", " (Python `"".split(", ") = [""]`), so the Get result is not
equal in all fields to the Create result. -/
theorem c5_roundtrip_counterexample :
    (upload_resume ⟨[EXPECTED_HEADERS], []⟩ "text" ⟨"n", "e", "p", "l", "g", []⟩
        "uf" "f.pdf" allOk).1
      = UploadOutcome.ok ⟨"uf", "f.pdf", "n", "e", "p", "l", "g", []⟩ ∧
    (get_resume (upload_resume ⟨[EXPECTED_HEADERS], []⟩ "text"
        ⟨"n", "e", "p", "l", "g", []⟩ "uf" "f.pdf" allOk).2 "uf" true).1
      = GetOutcome.ok ⟨"uf", "f.pdf", "n", "e", "p", "l", "g", [""]⟩ ∧
    GetOutcome.ok (⟨"uf", "f.pdf", "n", "e", "p", "l", "g", [""]⟩ : Record)
      ≠ GetOutcome.ok ⟨"uf", "f.pdf", "n", "e", "p", "l", "g", []⟩ := by
  decide

/-- C5 amended: the Create → Get round trip returns a Record equal in all
fields (id, filename, name, email, phone, linkedin, github, skills)
provided the skills list is non-empty and no skill contains the separator
", "; the empty skills list comes back as [""] (see the counterexample). -/
theorem c5_create_get_roundtrip (st : ServerState) (data : List (List String))
    (text : String) (parsed : Parsed) (uf fn : String)
    (hrows : st.rows = EXPECTED_HEADERS :: data)
    (hblank : blankText text = false)
    (hdup : has_duplicate_phone st.rows parsed.phone = false)
    (huf : uf ≠ "")
    (hsk : parsed.skills ≠ [])
    (hsep : ∀ s ∈ parsed.skills, pySplitCS s = [s]) :
    (upload_resume st text parsed uf fn allOk).1
      = UploadOutcome.ok (mkRecord uf fn parsed) ∧
    (get_resume (upload_resume st text parsed uf fn allOk).2 uf true).1
      = GetOutcome.ok (mkRecord uf fn parsed) := by
  have hup : upload_resume st text parsed uf fn allOk
      = (UploadOutcome.ok (mkRecord uf fn parsed),
         ⟨EXPECTED_HEADERS :: (data ++ [serializeRow (mkRecord uf fn parsed)]),
          dictInsert st.resumes uf (mkRecord uf fn parsed)⟩) := by
    rw [upload_success st text parsed uf fn allOk hblank rfl hdup]
    rw [show allOk.ensureOk = true from rfl, show allOk.appendOk = true from rfl,
      hrows, append_all_ok]
  refine ⟨by rw [hup], ?_⟩
  rw [hup]
  simp only [get_resume]
  rw [fetch_wf (data ++ [serializeRow (mkRecord uf fn parsed)])
    (dictInsert st.resumes uf (mkRecord uf fn parsed))]
  dsimp only
  have hlook := build_cache_append_lookup data (serializeRow (mkRecord uf fn parsed))
    (by exact huf)
  rw [show rowID (serializeRow (mkRecord uf fn parsed)) = uf from rfl] at hlook
  rw [hlook]
  dsimp only
  rw [rowToRecord_serialize (mkRecord uf fn parsed) hsk hsep]

/-- C5 amended witness: a concrete Create with skills ["python", "sql"]
whose Get returns the identical record. -/
theorem c5_create_get_roundtrip_witness :
    (upload_resume ⟨[EXPECTED_HEADERS], []⟩ "text"
        ⟨"n", "e", "p", "l", "g", ["python", "sql"]⟩ "uf" "f.pdf" allOk).1
      = UploadOutcome.ok ⟨"uf", "f.pdf", "n", "e", "p", "l", "g", ["python", "sql"]⟩ ∧
    (get_resume (upload_resume ⟨[EXPECTED_HEADERS], []⟩ "text"
        ⟨"n", "e", "p", "l", "g", ["python", "sql"]⟩ "uf" "f.pdf" allOk).2 "uf" true).1
      = GetOutcome.ok ⟨"uf", "f.pdf", "n", "e", "p", "l", "g", ["python", "sql"]⟩ := by
  exact c5_create_get_roundtrip ⟨[EXPECTED_HEADERS], []⟩ [] "text"
    ⟨"n", "e", "p", "l", "g", ["python", "sql"]⟩ "uf" "f.pdf"
    rfl (by decide) (by decide) (by decide) (by decide) (by decide)

theorem delete_present (data : List (List String)) (m : List (String × Record))
    (rid : String) (hmem : rid ∈ dataIds data) (hID : rid ≠ "ID") :
    delete_resume ⟨EXPECTED_HEADERS :: data, m⟩ rid true true
      = (DeleteOutcome.ok,
         ⟨EXPECTED_HEADERS :: delete_first_row rid data,
          dictErase (build_cache (get_all_records (EXPECTED_HEADERS :: data))) rid⟩) := by
  obtain ⟨v, hv⟩ := lookup_build_mem data rid hmem
  simp only [delete_resume]
  rw [fetch_wf]
  dsimp only
  rw [hv]
  dsimp only
  rw [delete_first_row_expected data rid hID]
  rfl

theorem delete_absent (data : List (List String)) (m : List (String × Record))
    (rid : String) (hmem : rid ∉ dataIds data) :
    delete_resume ⟨EXPECTED_HEADERS :: data, m⟩ rid true true
      = (DeleteOutcome.notFound,
         ⟨EXPECTED_HEADERS :: data,
          build_cache (get_all_records (EXPECTED_HEADERS :: data))⟩) := by
  have hv := lookup_build_not_mem data rid hmem
  simp only [delete_resume]
  rw [fetch_wf]
  dsimp only
  rw [hv]

theorem get_resume_absent (data : List (List String)) (m : List (String × Record))
    (rid : String) (hmem : rid ∉ dataIds data) :
    (get_resume ⟨EXPECTED_HEADERS :: data, m⟩ rid true).1 = GetOutcome.notFound := by
  have hv := lookup_build_not_mem data rid hmem
  simp only [get_resume]
  rw [fetch_wf]
  dsimp only
  rw [hv]

/-- C6: Delete of an id present on the sheet (with pairwise-distinct
non-empty IDs, none equal to the header label "ID") succeeds, shrinks the
length of a subsequent List by exactly one, and a subsequent Get of that id
answers NotFound; Delete of an absent id answers NotFound and leaves the
List length unchanged. -/
theorem c6_delete_semantics (st : ServerState) (data : List (List String))
    (rid : String)
    (hrows : st.rows = EXPECTED_HEADERS :: data)
    (hnd : (dataIds data).Nodup)
    (hID : "ID" ∉ dataIds data) :
    (rid ∈ dataIds data →
       (delete_resume st rid true true).1 = DeleteOutcome.ok ∧
       list_len (delete_resume st rid true true).2 + 1 = list_len st ∧
       (get_resume (delete_resume st rid true true).2 rid true).1
         = GetOutcome.notFound) ∧
    (rid ∉ dataIds data →
       (delete_resume st rid true true).1 = DeleteOutcome.notFound ∧
       list_len (delete_resume st rid true true).2 = list_len st) := by
  obtain ⟨rows, m⟩ := st
  have hr : rows = EXPECTED_HEADERS :: data := hrows
  subst hr
  constructor
  · intro hmem
    have hne : rid ≠ "ID" := fun e => hID (e ▸ hmem)
    have hdel := delete_present data m rid hmem hne
    rw [hdel]
    have hids := dataIds_delete data rid hmem hnd
    refine ⟨rfl, ?_, ?_⟩
    · show list_len ⟨EXPECTED_HEADERS :: delete_first_row rid data, _⟩ + 1 = _
      rw [list_len_eq (delete_first_row rid data) _ (by rw [hids]; exact hnd.erase rid),
        list_len_eq data m hnd, hids]
      exact List.length_erase_add_one hmem
    · refine get_resume_absent _ _ rid ?_
      rw [hids]
      exact hnd.not_mem_erase
  · intro hmem
    have hdel := delete_absent data m rid hmem
    rw [hdel]
    refine ⟨rfl, ?_⟩
    show list_len ⟨EXPECTED_HEADERS :: data, _⟩ = _
    rw [list_len_eq data _ hnd, list_len_eq data m hnd]

/-- C6 witness: a two-record sheet; deleting present id "a" succeeds,
shrinks List from 2 to 1 and Get("a") answers NotFound; deleting absent id
"zz" answers NotFound with List length unchanged. -/
theorem c6_delete_semantics_witness :
    (delete_resume ⟨[EXPECTED_HEADERS,
        ["a", "f1", "n1", "e1", "1", "l1", "g1", "x"],
        ["b", "f2", "n2", "e2", "2", "l2", "g2", "y"]], []⟩ "a" true true).1
      = DeleteOutcome.ok ∧
    list_len (delete_resume ⟨[EXPECTED_HEADERS,
        ["a", "f1", "n1", "e1", "1", "l1", "g1", "x"],
        ["b", "f2", "n2", "e2", "2", "l2", "g2", "y"]], []⟩ "a" true true).2 + 1
      = list_len ⟨[EXPECTED_HEADERS,
        ["a", "f1", "n1", "e1", "1", "l1", "g1", "x"],
        ["b", "f2", "n2", "e2", "2", "l2", "g2", "y"]], []⟩ ∧
    (get_resume (delete_resume ⟨[EXPECTED_HEADERS,
        ["a", "f1", "n1", "e1", "1", "l1", "g1", "x"],
        ["b", "f2", "n2", "e2", "2", "l2", "g2", "y"]], []⟩ "a" true true).2
        "a" true).1 = GetOutcome.notFound ∧
    (delete_resume ⟨[EXPECTED_HEADERS,
        ["a", "f1", "n1", "e1", "1", "l1", "g1", "x"],
        ["b", "f2", "n2", "e2", "2", "l2", "g2", "y"]], []⟩ "zz" true true).1
      = DeleteOutcome.notFound ∧
    list_len (delete_resume ⟨[EXPECTED_HEADERS,
        ["a", "f1", "n1", "e1", "1", "l1", "g1", "x"],
        ["b", "f2", "n2", "e2", "2", "l2", "g2", "y"]], []⟩ "zz" true true).2
      = list_len ⟨[EXPECTED_HEADERS,
        ["a", "f1", "n1", "e1", "1", "l1", "g1", "x"],
        ["b", "f2", "n2", "e2", "2", "l2", "g2", "y"]], []⟩ := by
  have hp := (c6_delete_semantics ⟨[EXPECTED_HEADERS,
      ["a", "f1", "n1", "e1", "1", "l1", "g1", "x"],
      ["b", "f2", "n2", "e2", "2", "l2", "g2", "y"]], []⟩
    [["a", "f1", "n1", "e1", "1", "l1", "g1", "x"],
     ["b", "f2", "n2", "e2", "2", "l2", "g2", "y"]] "a"
    rfl (by decide) (by decide)).1 (by decide)
  have ha := (c6_delete_semantics ⟨[EXPECTED_HEADERS,
      ["a", "f1", "n1", "e1", "1", "l1", "g1", "x"],
      ["b", "f2", "n2", "e2", "2", "l2", "g2", "y"]], []⟩
    [["a", "f1", "n1", "e1", "1", "l1", "g1", "x"],
     ["b", "f2", "n2", "e2", "2", "l2", "g2", "y"]] "zz"
    rfl (by decide) (by decide)).2 (by decide)
  exact ⟨hp.1, hp.2.1, hp.2.2, ha.1, ha.2⟩

/-- C7: Create with empty extracted text fails with the extraction error
(server.py lines 107-109) before any remote call: the whole state — sheet
and cache — is returned unchanged, so a subsequent List has unchanged
length and the cache gains no entry. Holds for every state, parsed fields
and remote-failure configuration. -/
theorem c7_create_empty_text (st : ServerState) (parsed : Parsed)
    (uf fn : String) (fl : RemoteFlags) :
    upload_resume st "" parsed uf fn fl = (UploadOutcome.extractionFailed, st) ∧
    list_len (upload_resume st "" parsed uf fn fl).2 = list_len st := by
  have h : upload_resume st "" parsed uf fn fl
      = (UploadOutcome.extractionFailed, st) := by
    unfold upload_resume
    rw [show blankText "" = true from rfl]
    rfl
  exact ⟨h, by rw [h]⟩

/-- C8 counterexample: starting from the table [[], ["x"]] — a blank first
row followed by a data row, a state with zero header rows — two calls of
the header-ensure operation append the header twice (`sheet.row_values(1)`
stays falsy because row 1 keeps no content, so every call appends), leaving
two header rows: "any number of calls leaves at most one header row" fails
for arbitrary table states. -/
theorem c8_header_counterexample :
    List.count EXPECTED_HEADERS [([] : List String), ["x"]] = 0 ∧
    List.count EXPECTED_HEADERS (ensure_headers (ensure_headers [[], ["x"]])) = 2 := by
  decide

/-- C8 amended: restricted to tables that are empty or whose first row has
content — which covers every state the system itself writes, since the
operation appends the header exactly when `row_values(1)` is falsy — the
header-ensure operation is idempotent, leaves at most one header row when
the table started with at most one, and only ever appends (existing data
rows are preserved as a prefix, in order and unmodified). -/
theorem c8_ensure_headers_idempotent (rows : List (List String))
    (hwf : rows = [] ∨ firstRowEmpty rows = false)
    (hcount : List.count EXPECTED_HEADERS rows ≤ 1) :
    ensure_headers (ensure_headers rows) = ensure_headers rows ∧
    List.count EXPECTED_HEADERS (ensure_headers rows) ≤ 1 ∧
    ∃ t, ensure_headers rows = rows ++ t := by
  rcases hwf with rfl | hne
  · refine ⟨by decide, by decide, [EXPECTED_HEADERS], by decide⟩
  · have h1 : ensure_headers rows = rows := by
      unfold ensure_headers
      rw [hne]
      rfl
    refine ⟨by rw [h1, h1], by rw [h1]; exact hcount, [], by rw [h1, List.append_nil]⟩

/-- C8 amended witness: a table whose first row is the header already:
re-running the header-ensure operation changes nothing and keeps exactly
one header row. -/
theorem c8_ensure_headers_idempotent_witness :
    ensure_headers (ensure_headers [EXPECTED_HEADERS, ["x"]])
      = ensure_headers [EXPECTED_HEADERS, ["x"]] ∧
    List.count EXPECTED_HEADERS (ensure_headers [EXPECTED_HEADERS, ["x"]]) ≤ 1 := by
  have h := c8_ensure_headers_idempotent [EXPECTED_HEADERS, ["x"]]
    (Or.inr (by decide)) (by decide)
  exact ⟨h.1, h.2.1⟩

/-- C9: the row a successful Create appends to the sheet lists the Record's
fields in exactly the fixed positional order [ID, Filename, Name, Email,
Phone, LinkedIn, GitHub, Skills], with the skills list serialized by
joining with ", " in the last column; reading each of the appended row's
cells back through the header dictionary returns the corresponding field. -/
theorem c9_create_row_layout (st : ServerState) (data : List (List String))
    (text : String) (parsed : Parsed) (uf fn : String)
    (hrows : st.rows = EXPECTED_HEADERS :: data)
    (hblank : blankText text = false)
    (hdup : has_duplicate_phone st.rows parsed.phone = false) :
    (upload_resume st text parsed uf fn allOk).2.rows
      = st.rows ++ [[uf, fn, parsed.name, parsed.email, parsed.phone,
                     parsed.linkedin, parsed.github, pyJoinCS parsed.skills]] ∧
    dictGet EXPECTED_HEADERS (serializeRow (mkRecord uf fn parsed)) "ID"
      = some uf ∧
    dictGet EXPECTED_HEADERS (serializeRow (mkRecord uf fn parsed)) "Filename"
      = some fn ∧
    dictGet EXPECTED_HEADERS (serializeRow (mkRecord uf fn parsed)) "Name"
      = some parsed.name ∧
    dictGet EXPECTED_HEADERS (serializeRow (mkRecord uf fn parsed)) "Email"
      = some parsed.email ∧
    dictGet EXPECTED_HEADERS (serializeRow (mkRecord uf fn parsed)) "Phone"
      = some parsed.phone ∧
    dictGet EXPECTED_HEADERS (serializeRow (mkRecord uf fn parsed)) "LinkedIn"
      = some parsed.linkedin ∧
    dictGet EXPECTED_HEADERS (serializeRow (mkRecord uf fn parsed)) "GitHub"
      = some parsed.github ∧
    dictGet EXPECTED_HEADERS (serializeRow (mkRecord uf fn parsed)) "Skills"
      = some (pyJoinCS parsed.skills) := by
  refine ⟨?_, rfl, rfl, rfl, rfl, rfl, rfl, rfl, rfl⟩
  rw [upload_success st text parsed uf fn allOk hblank rfl hdup]
  show append_to_google_sheet st.rows (mkRecord uf fn parsed)
    allOk.ensureOk allOk.appendOk = _
  rw [show allOk.ensureOk = true from rfl, show allOk.appendOk = true from rfl,
    hrows, append_all_ok, List.cons_append]
  rfl

/-- C9 witness: a concrete successful Create appends exactly the row in
header order with the skills joined by ", ". -/
theorem c9_create_row_layout_witness :
    (upload_resume ⟨[EXPECTED_HEADERS], []⟩ "text"
        ⟨"N", "E", "P", "L", "G", ["a", "b"]⟩ "uf" "f.pdf" allOk).2.rows
      = [EXPECTED_HEADERS] ++ [["uf", "f.pdf", "N", "E", "P", "L", "G",
          pyJoinCS ["a", "b"]]] ∧
    dictGet EXPECTED_HEADERS
        (serializeRow (mkRecord "uf" "f.pdf" ⟨"N", "E", "P", "L", "G", ["a", "b"]⟩))
        "Skills" = some (pyJoinCS ["a", "b"]) := by
  have h := c9_create_row_layout ⟨[EXPECTED_HEADERS], []⟩ [] "text"
    ⟨"N", "E", "P", "L", "G", ["a", "b"]⟩ "uf" "f.pdf"
    rfl (by decide) (by decide)
  exact ⟨h.1, h.2.2.2.2.2.2.2.2⟩

/-- C10: Create with extracted text that is non-empty but consists only of
whitespace characters fails exactly like the empty-text case: `not
extracted_text.strip()` is true, so the extraction error is returned before
the dedup scan, no row is appended, and the cache gains no entry — the
whole state is unchanged, so a subsequent List has unchanged length. -/
theorem c10_create_whitespace_text (st : ServerState) (parsed : Parsed)
    (uf fn : String) (fl : RemoteFlags) (s : String)
    (_hne : s ≠ "")
    (hws : ∀ c ∈ s.data, c.isWhitespace) :
    upload_resume st s parsed uf fn fl = (UploadOutcome.extractionFailed, st) ∧
    list_len (upload_resume st s parsed uf fn fl).2 = list_len st := by
  have hb := blankText_of_whitespace s hws
  have h : upload_resume st s parsed uf fn fl
      = (UploadOutcome.extractionFailed, st) := by
    unfold upload_resume
    rw [hb]
    rfl
  exact ⟨h, by rw [h]⟩

/-- C10 witness: a single-space text on a one-record sheet fails with the
extraction error and leaves the state unchanged. -/
theorem c10_create_whitespace_text_witness :
    upload_resume ⟨[EXPECTED_HEADERS], []⟩ " \t\n"
        ⟨"n", "e", "p", "l", "g", ["s"]⟩ "uf" "f.pdf" allOk
      = (UploadOutcome.extractionFailed, ⟨[EXPECTED_HEADERS], []⟩) ∧
    list_len (upload_resume ⟨[EXPECTED_HEADERS], []⟩ " \t\n"
        ⟨"n", "e", "p", "l", "g", ["s"]⟩ "uf" "f.pdf" allOk).2
      = list_len ⟨[EXPECTED_HEADERS], []⟩ := by
  exact c10_create_whitespace_text ⟨[EXPECTED_HEADERS], []⟩
    ⟨"n", "e", "p", "l", "g", ["s"]⟩ "uf" "f.pdf" allOk " \t\n"
    (by decide) (by decide)

end ResumeStore
